import Mathlib

/-!
Shallow embedding of the auto-budget core of `shopee_ads_monitor.py`
(classes `BudgetManager`, `AutoBudgetEngine`, `SnapshotManager`).

Modelling conventions:
* Python floats are modelled as `ℚ` (all arithmetic in the source is decimal
  arithmetic on currency amounts, ratios and millisecond timestamps, exact in `ℚ`);
  Python ints as `ℤ`/`ℕ`.  For a positive modulus Python's `%` agrees with
  `Int.emod`, the `%` of `ℤ`.
* Campaign records are Firebase dictionaries read with `cam.get(key, default)`;
  a `Campaign` structure field holds the value that read produces, so a missing
  key is represented by the source's default.  The comma-separated
  `schedule_times` string is represented by the list of its (stripped) entries.
  The boolean toggles `eval_180`/`eval_60`/`eval_15` hold the value of the
  source expression `cam.get(...) != False`.
* The clock is passed explicitly: `now_ms` (epoch milliseconds, from
  `time.time() * 1000`), `today` (the `%Y-%m-%d` string), `now_str`/`now_hm`
  (the `%H:%M` string) and `now_min` (minutes since midnight,
  `now.hour * 60 + now.minute`).
* The human-readable Thai `reason` strings built by f-string interpolation carry
  no control flow; they are represented by the `Reason` tag of the branch that
  produced them.
* `execute_action` performs Firebase writes, best-effort remote API calls and a
  log append; it is modelled as a function returning its `applied` flag together
  with the ordered list of external effects (`Event` trace).  The remote call's
  success/failure is an input (`remote_ok`), and the empty-string endpoint
  sentinels `Config.ADS_*_URL` are modelled as configured/not-configured flags.
* Firebase snapshot keys are millisecond-timestamp *strings*.  The window
  evaluator parses them with `int(...)` (non-numeric keys are skipped), so it is
  given `List (ℤ × Snap)`; the retention sweep compares the raw key strings with
  Python's `<` on `str`, so it is given the raw `String` keys and `pyStrLt`
  models that lexicographic comparison.
-/

set_option maxRecDepth 100000

namespace AdsMonitor

/-- One snapshot record as written by `SnapshotManager.take_snapshot`:
`spent` and `sales` are floats, `cart`, `clicks`, `orders` ints. -/
structure Snap where
  spent : ℚ
  cart : ℤ
  clicks : ℤ
  orders : ℤ
  sales : ℚ
deriving DecidableEq

/-- A campaign record as read from `shopee_ads/campaigns/{id}`, with the
source's `cam.get(key, default)` defaults already applied (see module header). -/
structure Campaign where
  spent_today : ℚ
  daily_budget : ℚ
  roas : ℚ
  roas_target : ℚ
  cart_value : ℚ
  /-- raw percentage, the engine divides by 100 -/
  budget_threshold : ℚ
  /-- raw percentage, the engine divides by 100 -/
  roas_min_pct : ℚ
  status : String
  /-- `none` models a record with no `'channel'` key (the two readers use
  different defaults: `cam_id` in `evaluate_normal`, `''` in `_check_schedule`) -/
  channel : Option String
  eval_180 : Bool
  eval_60 : Bool
  eval_15 : Bool
  schedule_times : List String
  last_schedule_action : Option String
  no_increase_start : String
  no_increase_end : String
  competition_interval : ℤ
  competition_amount : ℤ
  /-- epoch ms of the last automated mutation; `0` (Python-falsy) means never -/
  last_auto_action : ℤ
deriving DecidableEq

inductive ActKind where
  | set_budget
  | increase_budget
  | pause
  | resume
deriving DecidableEq

/-- Tag for the `reason` string of an action (one tag per producing branch). -/
inductive Reason where
  | roasLowFreeze
  | roasLowPause
  | roasGoodIncrease
  | cartGoodWindow (minutes : ℤ)
  | schedBudgetFull (t : String)
  | schedResume (t : String)
  | compCartGood
  | compScheduled
deriving DecidableEq

/-- The ephemeral action dicts produced by the decision engine. -/
structure Action where
  campaign_id : Option String
  action : ActKind
  new_budget : Option ℤ
  reason : Reason
  channel : String
  schedule_key : Option String
deriving DecidableEq

/-- The `Config.ADS_*_URL` endpoint sentinels: `true` iff the URL string is
non-empty (configured). -/
structure Config where
  ads_set_budget_url : Bool
  ads_pause_campaign_url : Bool
  ads_resume_campaign_url : Bool
deriving DecidableEq

/-- The `fb_updates` dict that `execute_action` writes to
`shopee_ads/campaigns/{id}`. -/
structure FbUpdates where
  last_auto_action : ℕ
  last_schedule_action : Option String
  daily_budget : Option ℤ
  status : Option String
deriving DecidableEq

/-- One externally visible effect of `execute_action`, in program order. -/
inductive Event where
  | remoteSetBudget (campaign_id : Option String) (new_budget : ℤ) (ok : Bool)
  | remotePause (campaign_id : Option String) (ok : Bool)
  | remoteResume (campaign_id : Option String) (ok : Bool)
  | storeUpdate (campaign_id : String) (upd : FbUpdates)
  | logAppend (kind : String) (channel : String) (reason : Reason)
      (time_hm : String) (timestamp : ℕ)
deriving DecidableEq

/-! ## Budget arithmetic (`BudgetManager`) -/

/-- `BudgetManager.validate`: `False` if `amount < Config.MIN_BUDGET` (200) or
`amount % 100 not in Config.VALID_ENDINGS` ([0, 25, 50, 75]).  The source also
returns a human-readable reason string, which carries no logic. -/
def validate (amount : ℤ) : Bool :=
  if amount < 200 then false
  else decide (amount % 100 ∈ ([0, 25, 50, 75] : List ℤ))

/-- `BudgetManager.round_up`: `max(Config.MIN_BUDGET, math.ceil(amount / 25) * 25)`. -/
def round_up (amount : ℚ) : ℤ :=
  max 200 (⌈amount / 25⌉ * 25)

/-- `BudgetManager.calc_increment`: `inc = increment or Config.BUDGET_INCREMENT`
(so a missing or zero increment falls back to 25), then `round_up(current + inc)`. -/
def calc_increment (current_budget : ℚ) (increment : Option ℤ) : ℤ :=
  let inc : ℤ :=
    match increment with
    | none => 25
    | some i => if i = 0 then 25 else i
  round_up (current_budget + (inc : ℚ))

/-! ## Window evaluator (`AutoBudgetEngine._is_cart_good`) -/

/-- Stable insertion into a time-sorted list (helper for `sortByTime`). -/
def insertByTime (p : ℤ × Snap) : List (ℤ × Snap) → List (ℤ × Snap)
  | [] => [p]
  | q :: qs => if p.1 ≤ q.1 then p :: q :: qs else q :: insertByTime p qs

/-- `snaps_in_window.sort(key=lambda x: x['time'])`: Python's stable sort by
timestamp, modelled as a stable insertion sort. -/
def sortByTime : List (ℤ × Snap) → List (ℤ × Snap)
  | [] => []
  | p :: ps => insertByTime p (sortByTime ps)

/-- The `snaps_in_window` list of `_is_cart_good`: snapshots with
`window_start <= ts <= now_ms`, sorted ascending by timestamp.  (Keys that fail
`int(ts_str)` are skipped by the source; the model receives already-parsed
integer keys.) -/
def snaps_in_window (cam_snaps : List (ℤ × Snap)) (minutes now_ms : ℤ) :
    List (ℤ × Snap) :=
  let window_start := now_ms - minutes * 60 * 1000
  sortByTime (cam_snaps.filter fun p => window_start ≤ p.1 && p.1 ≤ now_ms)

/-- `AutoBudgetEngine._is_cart_good`. -/
def is_cart_good (cam_snaps : List (ℤ × Snap)) (cart_value : ℚ)
    (minutes now_ms : ℤ) : Bool :=
  if cam_snaps.isEmpty then false
  else
    let w := snaps_in_window cam_snaps minutes now_ms
    if w.length < 2 then false
    else
      match w.head?, w.getLast? with
      | some first, some last =>
        let spent_diff : ℚ := last.2.spent - first.2.spent
        let cart_diff : ℤ := last.2.cart - first.2.cart
        if spent_diff < cart_value then false
        else if cart_diff ≤ 0 then false
        else decide (spent_diff / (cart_diff : ℚ) ≤ cart_value * (3 / 2))
      | _, _ => false

/-! ## Time parsing (`AutoBudgetEngine._in_time_window`) -/

/-- Split a character list on a separator character (model of `str.split`). -/
def splitOnChar (sep : Char) : List Char → List (List Char)
  | [] => [[]]
  | c :: rest =>
    match splitOnChar sep rest with
    | [] => if c = sep then [[], []] else [[c]]
    | h :: t => if c = sep then [] :: h :: t else (c :: h) :: t

/-- `int(...)` on one piece of an `HH:MM` string: the digits' value, `none` when
the piece is empty or non-numeric (the source catches that exception). -/
def parseNatChars (cs : List Char) : Option ℕ :=
  if cs.isEmpty then none
  else if cs.all Char.isDigit then
    some (cs.foldl (fun a c => 10 * a + (c.toNat - 48)) 0)
  else none

/-- `sh, sm = map(int, start_str.split(':'))`: both pieces of an `HH:MM` string,
`none` when unpacking or `int` would raise. -/
def parse_hhmm (s : String) : Option (ℕ × ℕ) :=
  match (splitOnChar ':' s.data).map parseNatChars with
  | [some h, some m] => some (h, m)
  | _ => none

/-- `AutoBudgetEngine._in_time_window` (wrap-around window supported; any
parse exception yields `False`). -/
def in_time_window (now_min : ℕ) (start_str end_str : String) : Bool :=
  match parse_hhmm start_str, parse_hhmm end_str with
  | some (sh, sm), some (eh, em) =>
    let start_min := sh * 60 + sm
    let end_min := eh * 60 + em
    if start_min ≤ end_min then
      decide (start_min ≤ now_min) && decide (now_min ≤ end_min)
    else
      decide (start_min ≤ now_min) || decide (now_min ≤ end_min)
  | _, _ => false

/-! ## Scheduled reactivation (`AutoBudgetEngine._check_schedule`)

The source scans `self.fb.read('shopee_ads/campaigns')` for the entry whose
`channel` equals the campaign's channel, to recover the campaign id; that
directory is modelled as `dir : List (String × String)` of `(id, channel)`
pairs. -/

/-- The `for t in sched_times` loop body of `_check_schedule`. -/
def check_schedule_go (cam : Campaign) (today now_str : String)
    (dir : List (String × String)) : List String → Option Action
  | [] => none
  | t :: rest =>
    if now_str = t then
      let today_key := today ++ "_" ++ t
      if cam.last_schedule_action = some today_key then none
      else
        let channel := cam.channel.getD ""
        let cam_id := (dir.find? fun p => p.2 == channel).map Prod.fst
        if cam.status = "budget_full" then
          some { campaign_id := cam_id, action := .increase_budget,
                 new_budget := some (calc_increment cam.daily_budget none),
                 reason := .schedBudgetFull t, channel := channel,
                 schedule_key := some today_key }
        else if cam.status = "paused" then
          some { campaign_id := cam_id, action := .resume, new_budget := none,
                 reason := .schedResume t, channel := channel,
                 schedule_key := some today_key }
        else check_schedule_go cam today now_str dir rest
    else check_schedule_go cam today now_str dir rest

/-- `AutoBudgetEngine._check_schedule`. -/
def check_schedule (cam : Campaign) (today now_str : String)
    (dir : List (String × String)) : Option Action :=
  check_schedule_go cam today now_str dir cam.schedule_times

/-! ## Decision engine -/

/-- The enabled window list of `evaluate_normal`, in the source's fixed build
order `[180, 60, 15]`. -/
def normal_windows (cam : Campaign) : List ℤ :=
  (if cam.eval_180 then [180] else []) ++
  (if cam.eval_60 then [60] else []) ++
  (if cam.eval_15 then [15] else [])

/-- `AutoBudgetEngine.evaluate_normal`.  (The source also fetches
`_find_live_data(channel, live_data)` at rule 2, but never uses the result;
that dead read is omitted.) -/
def evaluate_normal (cam_id : String) (cam : Campaign)
    (cam_snaps : List (ℤ × Snap)) (now_ms : ℤ) (today now_str : String)
    (dir : List (String × String)) : Option Action :=
  let spent := cam.spent_today
  let budget := cam.daily_budget
  let budget_threshold := cam.budget_threshold / 100
  let roas_min_pct := cam.roas_min_pct / 100
  let pct_used := if 0 < budget then spent / budget else 0
  let channel := cam.channel.getD cam_id
  -- 1. Check ROAS too low
  if 0 < cam.roas ∧ cam.roas < cam.roas_target * roas_min_pct then
    if 200 < spent then
      let freeze_budget := round_up spent
      if budget ≠ (freeze_budget : ℚ) then
        some { campaign_id := some cam_id, action := .set_budget,
               new_budget := some freeze_budget, reason := .roasLowFreeze,
               channel := channel, schedule_key := none }
      else none
    else if spent < 200 then
      if cam.status ≠ "paused" then
        some { campaign_id := some cam_id, action := .pause, new_budget := none,
               reason := .roasLowPause, channel := channel,
               schedule_key := none }
      else none
    else none
  else
    -- 3. Check scheduled reactivation (reached when rule 2 emits nothing)
    let rule3 : Option Action :=
      if cam.status = "budget_full" ∨ cam.status = "paused" then
        check_schedule cam today now_str dir
      else none
    -- 2. Budget >= threshold -> evaluate for increase
    if budget_threshold ≤ pct_used then
      if cam.roas_target ≤ cam.roas then
        some { campaign_id := some cam_id, action := .increase_budget,
               new_budget := some (calc_increment budget none),
               reason := .roasGoodIncrease, channel := channel,
               schedule_key := none }
      else
        match (normal_windows cam).find?
            (fun mins => is_cart_good cam_snaps cam.cart_value mins now_ms) with
        | some mins =>
          some { campaign_id := some cam_id, action := .increase_budget,
                 new_budget := some (calc_increment budget none),
                 reason := .cartGoodWindow mins, channel := channel,
                 schedule_key := none }
        | none => rule3
    else rule3

/-- `AutoBudgetEngine.evaluate_competition`. -/
def evaluate_competition (cam_id : String) (cam : Campaign)
    (cam_snaps : List (ℤ × Snap)) (now_min : ℕ) (now_ms : ℤ) : Option Action :=
  let spent := cam.spent_today
  let budget := cam.daily_budget
  let pct_used := if 0 < budget then spent / budget else 0
  let channel := cam.channel.getD cam_id
  if in_time_window now_min cam.no_increase_start cam.no_increase_end then none
  else if (99 : ℚ) / 100 ≤ pct_used ∨ cam.status = "budget_full" then
    let elapsed : ℚ :=
      if cam.last_auto_action ≠ 0 then
        ((now_ms : ℚ) - (cam.last_auto_action : ℚ)) / 60000
      else 999
    if (cam.competition_interval : ℚ) ≤ elapsed then
      if is_cart_good cam_snaps cam.cart_value 15 now_ms then
        some { campaign_id := some cam_id, action := .increase_budget,
               new_budget := some (calc_increment budget (some cam.competition_amount)),
               reason := .compCartGood, channel := channel, schedule_key := none }
      else
        some { campaign_id := some cam_id, action := .increase_budget,
               new_budget := some (calc_increment budget (some 25)),
               reason := .compScheduled, channel := channel,
               schedule_key := none }
    else none
  else none

/-! ## Action executor (`AutoBudgetEngine.execute_action`) -/

/-- The log entry's `'type'` field: `act.replace('_budget', '')`. -/
def log_type : ActKind → String
  | .set_budget => "set"
  | .increase_budget => "increase"
  | .pause => "pause"
  | .resume => "resume"

/-- The `fb_updates` dict as it stands when `execute_action` reaches
`self.fb.update(...)` (budget actions assumed validated). -/
def exec_updates (a : Action) (now_ms : ℕ) : FbUpdates :=
  let base : FbUpdates :=
    { last_auto_action := now_ms, last_schedule_action := a.schedule_key,
      daily_budget := none, status := none }
  match a.action with
  | .increase_budget | .set_budget =>
    { base with daily_budget := some (a.new_budget.getD 200),
                status := some "active" }
  | .pause => { base with status := some "paused" }
  | .resume => { base with status := some "active" }

/-- The `if cam_id: self.fb.update(...)` step: no store write when the action's
`campaign_id` is `None` (possible for `_check_schedule` actions whose channel
lookup found nothing). -/
def store_events (a : Action) (upd : FbUpdates) : List Event :=
  match a.campaign_id with
  | some cid => [Event.storeUpdate cid upd]
  | none => []

/-- `AutoBudgetEngine.execute_action`: returns the source's boolean result and
the ordered trace of external effects.  The remote API call is attempted (in
source order, i.e. *before* `self.fb.update`) only when the endpoint is
configured and a cookie is available; its outcome `remote_ok` is only logged. -/
def execute_action (cfg : Config) (a : Action) (cookie : Bool) (now_ms : ℕ)
    (now_hm : String) (remote_ok : Bool) : Bool × List Event :=
  let logEv := Event.logAppend (log_type a.action) a.channel a.reason now_hm now_ms
  match a.action with
  | .increase_budget | .set_budget =>
    let nb := a.new_budget.getD 200
    if validate nb = false then (false, [])
    else
      let remotes :=
        if cfg.ads_set_budget_url && cookie then
          [Event.remoteSetBudget a.campaign_id nb remote_ok]
        else []
      (true, remotes ++ store_events a (exec_updates a now_ms) ++ [logEv])
  | .pause =>
    let remotes :=
      if cfg.ads_pause_campaign_url && cookie then
        [Event.remotePause a.campaign_id remote_ok]
      else []
    (true, remotes ++ store_events a (exec_updates a now_ms) ++ [logEv])
  | .resume =>
    let remotes :=
      if cfg.ads_resume_campaign_url && cookie then
        [Event.remoteResume a.campaign_id remote_ok]
      else []
    (true, remotes ++ store_events a (exec_updates a now_ms) ++ [logEv])

/-- Effect of the Firebase merge `update('shopee_ads/campaigns/{id}', fb_updates)`
on a campaign record. -/
def apply_updates (cam : Campaign) (upd : FbUpdates) : Campaign :=
  { cam with
    last_auto_action := (upd.last_auto_action : ℤ)
    last_schedule_action :=
      match upd.last_schedule_action with
      | some k => some k
      | none => cam.last_schedule_action
    daily_budget :=
      match upd.daily_budget with
      | some b => (b : ℚ)
      | none => cam.daily_budget
    status := upd.status.getD cam.status }

/-! ## Retention sweep (`SnapshotManager.cleanup_old_snapshots`) -/

/-- Decimal digits of `n`, most significant first (fuel-based model of
Python's `str(int)`). -/
def natDigitsAux : ℕ → ℕ → List ℕ
  | 0, _ => []
  | fuel + 1, n => if n < 10 then [n] else natDigitsAux fuel (n / 10) ++ [n % 10]

def natDigits (n : ℕ) : List ℕ := natDigitsAux n.succ n

/-- Python's `str` on a non-negative int. -/
def natToString (n : ℕ) : String := ⟨(natDigits n).map Nat.digitChar⟩

/-- Python's `<` on `str`: code-point-wise lexicographic comparison. -/
def pyStrLt : List Char → List Char → Bool
  | [], [] => false
  | [], _ :: _ => true
  | _ :: _, [] => false
  | a :: as, b :: bs =>
    if a < b then true else if b < a then false else pyStrLt as bs

/-- `SnapshotManager.cleanup_old_snapshots` for one campaign: the key strings
that survive the sweep.  `cutoff = str(int((time.time() - 4 * 3600) * 1000))`
and a snapshot is deleted iff its key *string* satisfies `ts < cutoff`. -/
def cleanup_old_snapshots (now_ms : ℕ) (keys : List String) : List String :=
  let cutoff := natToString (now_ms - 14400000)
  keys.filter fun ts => !pyStrLt ts.data cutoff.data

/-! ## Specification-side helpers (used only to state claims) -/

/-- Numeric value of a decimal digit string (spec-side reading of a
millisecond-timestamp key). -/
def charsVal : List Char → ℕ
  | [] => 0
  | c :: cs => (c.toNat - 48) * 10 ^ cs.length + charsVal cs

def strVal (s : String) : ℕ := charsVal s.data

def is_remote_event : Event → Bool
  | .remoteSetBudget _ _ _ => true
  | .remotePause _ _ => true
  | .remoteResume _ _ => true
  | _ => false

def is_store_event : Event → Bool
  | .storeUpdate _ _ => true
  | _ => false

/-- Spec-side reading of C2's ordering sentence: every remote-API event of the
trace is preceded by a state-store write (scan with a seen-store flag). -/
def store_write_precedes_remotes (seen_store : Bool) : List Event → Bool
  | [] => true
  | e :: rest =>
    if is_remote_event e then
      seen_store && store_write_precedes_remotes seen_store rest
    else
      store_write_precedes_remotes (seen_store || is_store_event e) rest

/-- Numeric value of a decimal digit list, most significant first (spec side). -/
def digitsVal : List ℕ → ℕ
  | [] => 0
  | d :: ds => d * 10 ^ ds.length + digitsVal ds

/-! ## Concrete fixtures

A campaign record whose every field holds the source's `cam.get` default
(`spent_today` 0, `daily_budget` 200, `roas` 0, `roas_target` 30, `cart_value`
5, `budget_threshold` 90, `roas_min_pct` 50, status `active`,
`schedule_times` `'06:00,11:30,18:00,22:00'`, blackout `03:00`–`05:00`,
`competition_interval` 30, `competition_amount` 25, `last_auto_action` unset),
plus the variations used as concrete inputs below. -/

def baseCam : Campaign :=
  { spent_today := 0, daily_budget := 200, roas := 0, roas_target := 30,
    cart_value := 5, budget_threshold := 90, roas_min_pct := 50,
    status := "active", channel := some "ch", eval_180 := true,
    eval_60 := true, eval_15 := true,
    schedule_times := ["06:00", "11:30", "18:00", "22:00"],
    last_schedule_action := none, no_increase_start := "03:00",
    no_increase_end := "05:00", competition_interval := 30,
    competition_amount := 25, last_auto_action := 0 }

/-- Default campaign with `roas = 10` (below the floor `30 * 0.5 = 15`) and a
given `spent_today`. -/
def camRoasLow (spent : ℚ) : Campaign :=
  { baseCam with spent_today := spent, roas := 10 }

/-- Low-ROAS campaign over its budget threshold: `spent_today = 500`,
`daily_budget = 400`, `roas = 10`. -/
def camB : Campaign :=
  { baseCam with spent_today := 500, daily_budget := 400, roas := 10 }

/-- Competition campaign at 99.5 % budget use. -/
def camComp : Campaign := { baseCam with spent_today := 199 }

/-- Campaign at 95 % budget use with `roas = 35 ≥ roas_target`. -/
def camW : Campaign := { baseCam with spent_today := 190, roas := 35 }

/-- Default campaign whose status is `budget_full`. -/
def camSchedFull : Campaign := { baseCam with status := "budget_full" }

def cfgAll : Config := ⟨true, true, true⟩

def actSet500 : Action :=
  ⟨some "c1", .set_budget, some 500, .roasLowFreeze, "ch", none⟩

def actBad210 : Action :=
  ⟨some "c1", .set_budget, some 210, .roasLowFreeze, "ch", none⟩

/-- The action `_check_schedule` emits for `camSchedFull` at 06:00 on
2026-10-12 with directory `[("c1", "ch")]`. -/
def actSched : Action :=
  ⟨some "c1", .increase_budget, some 225, .schedBudgetFull "06:00", "ch",
   some "2026-10-12_06:00"⟩

/-- The §8 window example: two snapshots 10 minutes apart, spent 10→20,
cart 2→4. -/
def snapsGood : List (ℤ × Snap) := [(0, ⟨10, 2, 0, 0, 0⟩), (600000, ⟨20, 4, 0, 0, 0⟩)]

/-- A window with strong cart performance: spent 0→100, cart 0→20. -/
def snapsRich : List (ℤ × Snap) := [(0, ⟨0, 0, 0, 0, 0⟩), (600000, ⟨100, 20, 0, 0, 0⟩)]

/-! ## Helper lemmas -/

/-- `round_up` always lands on a valid budget: at least 200 and a multiple
of 25, whose remainder mod 100 is one of 0, 25, 50, 75. -/
theorem validate_round_up (q : ℚ) : validate (round_up q) = true := by
  unfold validate round_up
  rcases le_total (⌈q / 25⌉ * 25) 200 with h | h
  · rw [max_eq_left h]
    decide
  · rw [max_eq_right h, if_neg (by omega)]
    have hmod : ⌈q / 25⌉ * 25 % 100 = 25 * (⌈q / 25⌉ % 4) := by
      rw [mul_comm, show (100 : ℤ) = 25 * 4 from rfl,
        Int.mul_emod_mul_of_pos _ _ (by norm_num)]
    have h4 : ⌈q / 25⌉ % 4 = 0 ∨ ⌈q / 25⌉ % 4 = 1 ∨ ⌈q / 25⌉ % 4 = 2 ∨
        ⌈q / 25⌉ % 4 = 3 := by omega
    rw [hmod]
    rcases h4 with h4 | h4 | h4 | h4 <;> rw [h4] <;> decide

theorem validate_calc_increment (q : ℚ) (inc : Option ℤ) :
    validate (calc_increment q inc) = true := by
  unfold calc_increment
  exact validate_round_up _

/-- Any action emitted by the `_check_schedule` loop carries the idempotency
key `today + '_' + now_str`. -/
theorem check_schedule_go_key (cam : Campaign) (today now_str : String)
    (dir : List (String × String)) :
    ∀ ts a, check_schedule_go cam today now_str dir ts = some a →
      a.schedule_key = some (today ++ "_" ++ now_str) := by
  intro ts
  induction ts with
  | nil => intro a h; exact absurd h (by simp [check_schedule_go])
  | cons t rest ih =>
    intro a h
    simp only [check_schedule_go] at h
    by_cases h1 : now_str = t
    · subst h1
      rw [if_pos rfl] at h
      by_cases h2 : cam.last_schedule_action = some (today ++ "_" ++ now_str)
      · rw [if_pos h2] at h
        exact absurd h (by simp)
      · rw [if_neg h2] at h
        by_cases h3 : cam.status = "budget_full"
        · rw [if_pos h3] at h
          injection h with h'
          subst h'
          rfl
        · rw [if_neg h3] at h
          by_cases h4 : cam.status = "paused"
          · rw [if_pos h4] at h
            injection h with h'
            subst h'
            rfl
          · rw [if_neg h4] at h
            exact ih a h
    · rw [if_neg h1] at h
      exact ih a h

/-- Once `last_schedule_action` equals the key of the current minute, the
`_check_schedule` loop emits nothing. -/
theorem check_schedule_go_none (cam : Campaign) (today now_str : String)
    (dir : List (String × String))
    (hk : cam.last_schedule_action = some (today ++ "_" ++ now_str)) :
    ∀ ts, check_schedule_go cam today now_str dir ts = none := by
  intro ts
  induction ts with
  | nil => rfl
  | cons t rest ih =>
    simp only [check_schedule_go]
    by_cases h1 : now_str = t
    · subst h1
      rw [if_pos rfl, if_pos hk]
    · rw [if_neg h1]
      exact ih

/-- Any budget carried by a `_check_schedule` action passes validation. -/
theorem check_schedule_go_budget (cam : Campaign) (today now_str : String)
    (dir : List (String × String)) :
    ∀ ts a b, check_schedule_go cam today now_str dir ts = some a →
      a.new_budget = some b → validate b = true := by
  intro ts
  induction ts with
  | nil => intro a b h; exact absurd h (by simp [check_schedule_go])
  | cons t rest ih =>
    intro a b h hb
    simp only [check_schedule_go] at h
    by_cases h1 : now_str = t
    · subst h1
      rw [if_pos rfl] at h
      by_cases h2 : cam.last_schedule_action = some (today ++ "_" ++ now_str)
      · rw [if_pos h2] at h
        exact absurd h (by simp)
      · rw [if_neg h2] at h
        by_cases h3 : cam.status = "budget_full"
        · rw [if_pos h3] at h
          injection h with h'
          subst h'
          simp only at hb
          cases hb
          exact validate_calc_increment _ _
        · rw [if_neg h3] at h
          by_cases h4 : cam.status = "paused"
          · rw [if_pos h4] at h
            injection h with h'
            subst h'
            exact absurd hb (by simp)
          · rw [if_neg h4] at h
            exact ih a b h hb
    · rw [if_neg h1] at h
      exact ih a b h hb

/-! ## Claim theorems -/

/-- C9: Normal-policy worked example.  With `roas = 10`, `roas_target = 30`,
`roas_min_pct = 0.5` (floor 15) and the remaining fields at their defaults
(`daily_budget = 200`, status `active`): `spent_today = 500` yields
`set_budget` with `new_budget = round_up(500) = 500`, and `spent_today = 150`
yields `pause`. -/
theorem normal_policy_worked_example :
    evaluate_normal "c1" (camRoasLow 500) [] 0 "2026-10-12" "12:00" [] =
      some { campaign_id := some "c1", action := .set_budget,
             new_budget := some 500, reason := .roasLowFreeze, channel := "ch",
             schedule_key := none } ∧
    round_up 500 = 500 ∧
    evaluate_normal "c1" (camRoasLow 150) [] 0 "2026-10-12" "12:00" [] =
      some { campaign_id := some "c1", action := .pause, new_budget := none,
             reason := .roasLowPause, channel := "ch", schedule_key := none } := by
  with_unfolding_all decide

/-- C1, counterexample: at `spent_today = 200` exactly (with `0 < roas = 10`
below the floor 15 and status `active ≠ paused`) the claim predicts a `pause`
action, but `evaluate_normal` emits nothing — the source pauses only on
`spent < 200`, not `spent ≤ 200`. -/
theorem normal_roas_low_cex :
    (0 < (camRoasLow 200).roas ∧
     (camRoasLow 200).roas <
       (camRoasLow 200).roas_target * ((camRoasLow 200).roas_min_pct / 100) ∧
     (camRoasLow 200).spent_today ≤ 200 ∧ (camRoasLow 200).status ≠ "paused") ∧
    evaluate_normal "c1" (camRoasLow 200) [] 0 "2026-10-12" "12:00" [] = none := by
  with_unfolding_all decide

/-- C1, amended: for every campaign with `0 < roas < roas_target * roas_min_pct`,
if `spent_today > 200` the engine emits `set_budget` with
`new_budget = round_up(spent_today)` (and only when that differs from the
current `daily_budget`); when `spent_today < 200` (strictly) and status is not
`paused` it emits `pause`; at `spent_today = 200` exactly it emits nothing; in
every case no later rule (budget-threshold increase or scheduled reactivation)
fires for that campaign in that evaluation, since the result is fully
determined by the ROAS-floor rule. -/
theorem normal_roas_low_rule (cam_id : String) (cam : Campaign)
    (cam_snaps : List (ℤ × Snap)) (now_ms : ℤ) (today now_str : String)
    (dir : List (String × String))
    (h : 0 < cam.roas ∧ cam.roas < cam.roas_target * (cam.roas_min_pct / 100)) :
    evaluate_normal cam_id cam cam_snaps now_ms today now_str dir =
      if 200 < cam.spent_today then
        if cam.daily_budget ≠ (round_up cam.spent_today : ℚ) then
          some { campaign_id := some cam_id, action := .set_budget,
                 new_budget := some (round_up cam.spent_today),
                 reason := .roasLowFreeze, channel := cam.channel.getD cam_id,
                 schedule_key := none }
        else none
      else if cam.spent_today < 200 then
        if cam.status ≠ "paused" then
          some { campaign_id := some cam_id, action := .pause,
                 new_budget := none, reason := .roasLowPause,
                 channel := cam.channel.getD cam_id, schedule_key := none }
        else none
      else none := by
  simp only [evaluate_normal]
  rw [if_pos h]

theorem normal_roas_low_rule_witness :
    (0 < (camRoasLow 500).roas ∧
     (camRoasLow 500).roas <
       (camRoasLow 500).roas_target * ((camRoasLow 500).roas_min_pct / 100)) ∧
    evaluate_normal "c1" (camRoasLow 500) [] 0 "2026-10-12" "12:00" [] =
      (if 200 < (camRoasLow 500).spent_today then
        if (camRoasLow 500).daily_budget ≠
            (round_up (camRoasLow 500).spent_today : ℚ) then
          some { campaign_id := some "c1", action := .set_budget,
                 new_budget := some (round_up (camRoasLow 500).spent_today),
                 reason := .roasLowFreeze,
                 channel := (camRoasLow 500).channel.getD "c1",
                 schedule_key := none }
        else none
      else if (camRoasLow 500).spent_today < 200 then
        if (camRoasLow 500).status ≠ "paused" then
          some { campaign_id := some "c1", action := .pause,
                 new_budget := none, reason := .roasLowPause,
                 channel := (camRoasLow 500).channel.getD "c1",
                 schedule_key := none }
        else none
      else none) :=
  ⟨by with_unfolding_all decide,
   normal_roas_low_rule "c1" (camRoasLow 500) [] 0 "2026-10-12" "12:00" []
     (by with_unfolding_all decide)⟩

/-- C4: an `increase_budget`/`set_budget` action whose `new_budget` fails
budget validation is rejected: `execute_action` returns `False` with an empty
effect trace — no store update, no `last_schedule_action` write, no remote
call, no action-log append. -/
theorem exec_rejects_invalid_budget (cfg : Config) (a : Action) (cookie : Bool)
    (now_ms : ℕ) (now_hm : String) (remote_ok : Bool)
    (hk : a.action = .increase_budget ∨ a.action = .set_budget)
    (hv : validate (a.new_budget.getD 200) = false) :
    execute_action cfg a cookie now_ms now_hm remote_ok = (false, []) := by
  rcases hk with hk | hk <;> simp only [execute_action, hk] <;> rw [if_pos hv]

theorem exec_rejects_invalid_budget_witness :
    (actBad210.action = .increase_budget ∨ actBad210.action = .set_budget) ∧
    validate (actBad210.new_budget.getD 200) = false ∧
    execute_action cfgAll actBad210 true 1000 "12:00" true = (false, []) :=
  ⟨Or.inr rfl, by with_unfolding_all decide,
   exec_rejects_invalid_budget cfgAll actBad210 true 1000 "12:00" true
     (Or.inr rfl) (by with_unfolding_all decide)⟩

/-- C2, counterexample: for a valid `set_budget` action with a configured
endpoint and an available cookie, the executor's trace is
remote call → store write → log append, so the state-store write does *not*
precede the remote ads-API call (the source calls `set_campaign_budget`
before `self.fb.update`). -/
theorem exec_store_before_remote_cex :
    store_write_precedes_remotes false
        (execute_action cfgAll actSet500 true 1000 "12:00" false).2 = false ∧
    (execute_action cfgAll actSet500 true 1000 "12:00" false).2 =
      [Event.remoteSetBudget (some "c1") 500 false,
       Event.storeUpdate "c1" ⟨1000, none, some 500, some "active"⟩,
       Event.logAppend "set" "ch" .roasLowFreeze "12:00" 1000] := by
  with_unfolding_all decide

/-- C2, amended: for every action carrying a campaign id (and, for budget
actions, a valid `new_budget`), the executor's trace is exactly a prefix of
remote-API calls followed by the state-store write and the log append; the
store write's content `exec_updates a now_ms` does not depend on the remote
outcome `remote_ok`, happens exactly once, and the action is reported applied
— so a remote failure never prevents, rolls back, or retries the store write,
but the write happens *after* the remote call, not before. -/
theorem exec_store_write_survives_remote_failure (cfg : Config) (a : Action)
    (cookie : Bool) (now_ms : ℕ) (now_hm : String) (remote_ok : Bool)
    (cid : String) (hid : a.campaign_id = some cid)
    (hv : a.action = .increase_budget ∨ a.action = .set_budget →
          validate (a.new_budget.getD 200) = true) :
    (execute_action cfg a cookie now_ms now_hm remote_ok).1 = true ∧
    (execute_action cfg a cookie now_ms now_hm remote_ok).2 =
      (execute_action cfg a cookie now_ms now_hm remote_ok).2.takeWhile
          is_remote_event ++
        [Event.storeUpdate cid (exec_updates a now_ms),
         Event.logAppend (log_type a.action) a.channel a.reason now_hm now_ms] := by
  cases hact : a.action with
  | increase_budget =>
    have hval := hv (Or.inl hact)
    simp only [execute_action, hact]
    rw [if_neg (by simp [hval])]
    refine ⟨rfl, ?_⟩
    by_cases hc : cfg.ads_set_budget_url && cookie
    · rw [if_pos hc]
      simp [store_events, hid, List.takeWhile, is_remote_event, exec_updates, hact]
    · rw [if_neg hc]
      simp [store_events, hid, List.takeWhile, is_remote_event, exec_updates, hact]
  | set_budget =>
    have hval := hv (Or.inr hact)
    simp only [execute_action, hact]
    rw [if_neg (by simp [hval])]
    refine ⟨rfl, ?_⟩
    by_cases hc : cfg.ads_set_budget_url && cookie
    · rw [if_pos hc]
      simp [store_events, hid, List.takeWhile, is_remote_event, exec_updates, hact]
    · rw [if_neg hc]
      simp [store_events, hid, List.takeWhile, is_remote_event, exec_updates, hact]
  | pause =>
    simp only [execute_action, hact]
    refine ⟨trivial, ?_⟩
    by_cases hc : cfg.ads_pause_campaign_url && cookie
    · rw [if_pos hc]
      simp [store_events, hid, List.takeWhile, is_remote_event, exec_updates, hact]
    · rw [if_neg hc]
      simp [store_events, hid, List.takeWhile, is_remote_event, exec_updates, hact]
  | resume =>
    simp only [execute_action, hact]
    refine ⟨trivial, ?_⟩
    by_cases hc : cfg.ads_resume_campaign_url && cookie
    · rw [if_pos hc]
      simp [store_events, hid, List.takeWhile, is_remote_event, exec_updates, hact]
    · rw [if_neg hc]
      simp [store_events, hid, List.takeWhile, is_remote_event, exec_updates, hact]

theorem exec_store_write_survives_remote_failure_witness :
    actSet500.campaign_id = some "c1" ∧
    ((execute_action cfgAll actSet500 true 1000 "12:00" false).1 = true ∧
     (execute_action cfgAll actSet500 true 1000 "12:00" false).2 =
       (execute_action cfgAll actSet500 true 1000 "12:00" false).2.takeWhile
           is_remote_event ++
         [Event.storeUpdate "c1" (exec_updates actSet500 1000),
          Event.logAppend (log_type actSet500.action) actSet500.channel
            actSet500.reason "12:00" 1000]) :=
  ⟨rfl,
   exec_store_write_survives_remote_failure cfgAll actSet500 true 1000 "12:00"
     false "c1" rfl (fun _ => by with_unfolding_all decide)⟩

/-- C3: the window evaluator's verdict is `false` whenever the in-window
snapshot list has fewer than 2 points; otherwise, with `f` the chronologically
first and `l` the chronologically last in-window snapshot, the verdict is
`true` iff `spent_diff = l.spent − f.spent ≥ cart_value`,
`cart_diff = l.cart − f.cart > 0`, and
`spent_diff / cart_diff ≤ cart_value × 1.5`. -/
theorem cart_verdict_spec (cam_snaps : List (ℤ × Snap)) (cart_value : ℚ)
    (minutes now_ms : ℤ) :
    ((snaps_in_window cam_snaps minutes now_ms).length < 2 →
      is_cart_good cam_snaps cart_value minutes now_ms = false) ∧
    (∀ f l, (snaps_in_window cam_snaps minutes now_ms).head? = some f →
      (snaps_in_window cam_snaps minutes now_ms).getLast? = some l →
      2 ≤ (snaps_in_window cam_snaps minutes now_ms).length →
      (is_cart_good cam_snaps cart_value minutes now_ms = true ↔
        cart_value ≤ l.2.spent - f.2.spent ∧ 0 < l.2.cart - f.2.cart ∧
        (l.2.spent - f.2.spent) / ((l.2.cart - f.2.cart : ℤ) : ℚ) ≤
          cart_value * (3 / 2))) := by
  constructor
  · intro hlen
    simp only [is_cart_good]
    by_cases he : cam_snaps.isEmpty
    · rw [if_pos he]
    · rw [if_neg he, if_pos hlen]
  · intro f l hf hl hlen
    have he : ¬ cam_snaps.isEmpty = true := by
      cases cam_snaps with
      | nil =>
        exfalso
        rw [show snaps_in_window [] minutes now_ms = [] from rfl] at hf
        exact absurd hf (by simp)
      | cons p ps => simp [List.isEmpty]
    simp only [is_cart_good]
    rw [if_neg he, if_neg (by omega)]
    simp only [hf, hl]
    by_cases hsd : l.2.spent - f.2.spent < cart_value
    · rw [if_pos hsd]
      simp only [Bool.false_eq_true, false_iff]
      rintro ⟨hx, -, -⟩
      exact absurd hsd (not_lt.mpr hx)
    · rw [if_neg hsd]
      by_cases hcd : l.2.cart - f.2.cart ≤ 0
      · rw [if_pos hcd]
        simp only [Bool.false_eq_true, false_iff]
        rintro ⟨-, hx, -⟩
        exact absurd hcd (not_le.mpr hx)
      · rw [if_neg hcd, decide_eq_true_eq]
        constructor
        · intro hx
          exact ⟨not_lt.mp hsd, not_le.mp hcd, hx⟩
        · rintro ⟨-, -, hx⟩
          exact hx

theorem cart_verdict_spec_witness :
    is_cart_good snapsGood 5 15 600000 = true :=
  ((cart_verdict_spec snapsGood 5 15 600000).2 (0, ⟨10, 2, 0, 0, 0⟩)
      (600000, ⟨20, 4, 0, 0, 0⟩) (by decide) (by decide) (by decide)).mpr
    (by with_unfolding_all decide)

/-- C5: for a competition campaign outside its blackout window, with budget
use at least 99 % or status `budget_full`, and the interval elapsed (999
"very large" minutes when `last_auto_action` is unset), the engine *always*
emits `increase_budget`: by `calc_increment(daily_budget, competition_amount)`
when the 15-minute cart verdict is good, by `calc_increment(daily_budget, 25)`
otherwise — the verdict only sizes the increment, it never gates it. -/
theorem competition_always_increases (cam_id : String) (cam : Campaign)
    (cam_snaps : List (ℤ × Snap)) (now_min : ℕ) (now_ms : ℤ)
    (h1 : in_time_window now_min cam.no_increase_start cam.no_increase_end = false)
    (h2 : (99 : ℚ) / 100 ≤
        (if 0 < cam.daily_budget then cam.spent_today / cam.daily_budget else 0) ∨
      cam.status = "budget_full")
    (h3 : (cam.competition_interval : ℚ) ≤
        (if cam.last_auto_action ≠ 0 then
          ((now_ms : ℚ) - (cam.last_auto_action : ℚ)) / 60000
        else 999)) :
    evaluate_competition cam_id cam cam_snaps now_min now_ms =
      if is_cart_good cam_snaps cam.cart_value 15 now_ms then
        some { campaign_id := some cam_id, action := .increase_budget,
               new_budget := some (calc_increment cam.daily_budget
                 (some cam.competition_amount)),
               reason := .compCartGood, channel := cam.channel.getD cam_id,
               schedule_key := none }
      else
        some { campaign_id := some cam_id, action := .increase_budget,
               new_budget := some (calc_increment cam.daily_budget (some 25)),
               reason := .compScheduled, channel := cam.channel.getD cam_id,
               schedule_key := none } := by
  simp only [evaluate_competition]
  rw [if_neg (by simp [h1]), if_pos h2, if_pos h3]

theorem competition_always_increases_witness :
    (in_time_window 720 camComp.no_increase_start camComp.no_increase_end =
      false) ∧
    evaluate_competition "c1" camComp [] 720 0 =
      (if is_cart_good [] camComp.cart_value 15 0 then
        some { campaign_id := some "c1", action := .increase_budget,
               new_budget := some (calc_increment camComp.daily_budget
                 (some camComp.competition_amount)),
               reason := .compCartGood, channel := camComp.channel.getD "c1",
               schedule_key := none }
      else
        some { campaign_id := some "c1", action := .increase_budget,
               new_budget := some (calc_increment camComp.daily_budget (some 25)),
               reason := .compScheduled, channel := camComp.channel.getD "c1",
               schedule_key := none }) :=
  ⟨by with_unfolding_all decide,
   competition_always_increases "c1" camComp [] 720 0
     (by with_unfolding_all decide) (by with_unfolding_all decide)
     (by with_unfolding_all decide)⟩

/-- C6, counterexample: `camB` has `spent/budget = 500/400 ≥ 0.9`, `roas = 10`
below target, and its first enabled window (180 min) has a good cart verdict,
yet the engine emits a `set_budget` freeze, not the claimed `increase_budget`:
the ROAS-floor rule (rule 1) pre-empts the threshold rule. -/
theorem normal_threshold_window_cex :
    (camB.budget_threshold / 100 ≤
      (if 0 < camB.daily_budget then camB.spent_today / camB.daily_budget
       else 0)) ∧
    ¬ camB.roas_target ≤ camB.roas ∧
    (normal_windows camB).find?
        (fun mins => is_cart_good snapsRich camB.cart_value mins 600000) =
      some 180 ∧
    evaluate_normal "c1" camB snapsRich 600000 "2026-10-12" "12:00" [] =
      some { campaign_id := some "c1", action := .set_budget,
             new_budget := some 500, reason := .roasLowFreeze, channel := "ch",
             schedule_key := none } := by
  with_unfolding_all decide

/-- C6, amended: for every campaign with `spent_today / daily_budget ≥
budget_threshold` *whose ROAS-floor rule does not fire*
(`¬(0 < roas < roas_target × roas_min_pct)`): if `roas ≥ roas_target` the
engine emits `increase_budget` to `calc_increment(daily_budget)`; otherwise it
tests the enabled windows in the fixed order `[180, 60, 15]` and emits
`increase_budget` to `calc_increment(daily_budget)` for the first window whose
verdict is true, stopping there. -/
theorem normal_threshold_window_order (cam_id : String) (cam : Campaign)
    (cam_snaps : List (ℤ × Snap)) (now_ms : ℤ) (today now_str : String)
    (dir : List (String × String))
    (hpre : ¬(0 < cam.roas ∧
      cam.roas < cam.roas_target * (cam.roas_min_pct / 100)))
    (hth : cam.budget_threshold / 100 ≤
      (if 0 < cam.daily_budget then cam.spent_today / cam.daily_budget
       else 0)) :
    (cam.roas_target ≤ cam.roas →
      evaluate_normal cam_id cam cam_snaps now_ms today now_str dir =
        some { campaign_id := some cam_id, action := .increase_budget,
               new_budget := some (calc_increment cam.daily_budget none),
               reason := .roasGoodIncrease, channel := cam.channel.getD cam_id,
               schedule_key := none }) ∧
    (∀ m, ¬ cam.roas_target ≤ cam.roas →
      (normal_windows cam).find?
          (fun mins => is_cart_good cam_snaps cam.cart_value mins now_ms) =
        some m →
      evaluate_normal cam_id cam cam_snaps now_ms today now_str dir =
        some { campaign_id := some cam_id, action := .increase_budget,
               new_budget := some (calc_increment cam.daily_budget none),
               reason := .cartGoodWindow m, channel := cam.channel.getD cam_id,
               schedule_key := none }) := by
  constructor
  · intro hg
    simp only [evaluate_normal]
    rw [if_neg hpre, if_pos hth, if_pos hg]
  · intro m hg hfind
    simp only [evaluate_normal]
    rw [if_neg hpre, if_pos hth, if_neg hg, hfind]

theorem normal_threshold_window_order_witness :
    camW.roas_target ≤ camW.roas ∧
    evaluate_normal "c1" camW [] 0 "2026-10-12" "12:00" [] =
      some { campaign_id := some "c1", action := .increase_budget,
             new_budget := some (calc_increment camW.daily_budget none),
             reason := .roasGoodIncrease, channel := camW.channel.getD "c1",
             schedule_key := none } :=
  ⟨by with_unfolding_all decide,
   (normal_threshold_window_order "c1" camW [] 0 "2026-10-12" "12:00" []
     (by with_unfolding_all decide) (by with_unfolding_all decide)).1
     (by with_unfolding_all decide)⟩

/-- When the campaign's `last_schedule_action` equals the idempotency key of
the current minute, the whole Normal evaluation emits no schedule-keyed
action (rules 1 and 2 never attach a `schedule_key`, and `_check_schedule`
returns nothing). -/
theorem evaluate_normal_no_schedule_key (cam_id : String) (cam : Campaign)
    (cam_snaps : List (ℤ × Snap)) (now_ms : ℤ) (today now_str : String)
    (dir : List (String × String))
    (hlast : cam.last_schedule_action = some (today ++ "_" ++ now_str)) :
    Option.bind (evaluate_normal cam_id cam cam_snaps now_ms today now_str dir)
      Action.schedule_key = none := by
  have hcs : check_schedule cam today now_str dir = none := by
    unfold check_schedule
    exact check_schedule_go_none cam today now_str dir hlast cam.schedule_times
  simp only [evaluate_normal]
  rw [hcs]
  by_cases h1 : 0 < cam.roas ∧ cam.roas < cam.roas_target * (cam.roas_min_pct / 100)
  · rw [if_pos h1]
    by_cases h2 : 200 < cam.spent_today
    · rw [if_pos h2]
      by_cases h3 : cam.daily_budget ≠ (round_up cam.spent_today : ℚ)
      · rw [if_pos h3]
        rfl
      · rw [if_neg h3]
        rfl
    · rw [if_neg h2]
      by_cases h4 : cam.spent_today < 200
      · rw [if_pos h4]
        by_cases h5 : cam.status ≠ "paused"
        · rw [if_pos h5]
          rfl
        · rw [if_neg h5]
          rfl
      · rw [if_neg h4]
        rfl
  · rw [if_neg h1]
    by_cases h6 : cam.budget_threshold / 100 ≤
        (if 0 < cam.daily_budget then cam.spent_today / cam.daily_budget else 0)
    · rw [if_pos h6]
      by_cases h7 : cam.roas_target ≤ cam.roas
      · rw [if_pos h7]
        rfl
      · rw [if_neg h7]
        rcases hfind : (normal_windows cam).find?
            (fun mins => is_cart_good cam_snaps cam.cart_value mins now_ms)
          with _ | m
        · by_cases h8 : cam.status = "budget_full" ∨ cam.status = "paused"
          · rw [if_pos h8]
            rfl
          · rw [if_neg h8]
            rfl
        · rfl
    · rw [if_neg h6]
      by_cases h8 : cam.status = "budget_full" ∨ cam.status = "paused"
      · rw [if_pos h8]
        rfl
      · rw [if_neg h8]
        rfl

/-- C7: scheduled reactivation fires at most once per `(day, time)` pair.
If a campaign with status `budget_full`/`paused` matching a `schedule_times`
entry produced a scheduled action `a`, then after `execute_action`'s store
write (`exec_updates a`) is merged into the campaign — which sets
`last_schedule_action` to the key `today_t` — a second evaluation in the same
minute emits no action carrying a `schedule_key`. -/
theorem schedule_fires_once (cam : Campaign) (cam_id : String)
    (cam_snaps : List (ℤ × Snap)) (now_ms : ℤ) (exec_ms : ℕ) (today t : String)
    (dir : List (String × String)) (a : Action)
    (hstat : cam.status = "budget_full" ∨ cam.status = "paused")
    (ht : t ∈ cam.schedule_times)
    (ha : check_schedule cam today t dir = some a) :
    Option.bind
      (evaluate_normal cam_id (apply_updates cam (exec_updates a exec_ms))
        cam_snaps now_ms today t dir) Action.schedule_key = none := by
  have hkey : a.schedule_key = some (today ++ "_" ++ t) :=
    check_schedule_go_key cam today t dir cam.schedule_times a ha
  have hupd : (exec_updates a exec_ms).last_schedule_action = a.schedule_key := by
    cases h : a.action <;> simp [exec_updates, h]
  have hlast : (apply_updates cam (exec_updates a exec_ms)).last_schedule_action =
      some (today ++ "_" ++ t) := by
    simp [apply_updates, hupd, hkey]
  exact evaluate_normal_no_schedule_key cam_id _ cam_snaps now_ms today t dir hlast

theorem schedule_fires_once_witness :
    Option.bind
      (evaluate_normal "c1"
        (apply_updates camSchedFull (exec_updates actSched 1000)) [] 0
        "2026-10-12" "06:00" [("c1", "ch")]) Action.schedule_key = none :=
  schedule_fires_once camSchedFull "c1" [] 0 1000 "2026-10-12" "06:00"
    [("c1", "ch")] actSched (Or.inl rfl) (by decide)
    (by with_unfolding_all decide)

/-- Any budget carried by an action of `evaluate_normal` passes validation. -/
theorem evaluate_normal_budget_valid (cam_id : String) (cam : Campaign)
    (cam_snaps : List (ℤ × Snap)) (now_ms : ℤ) (today now_str : String)
    (dir : List (String × String)) (a : Action) (b : ℤ)
    (ha : evaluate_normal cam_id cam cam_snaps now_ms today now_str dir = some a)
    (hb : a.new_budget = some b) : validate b = true := by
  have rule3 : ∀ h : Prop, ∀ inst : Decidable h,
      (if h then check_schedule cam today now_str dir else none) = some a →
      validate b = true := by
    intro h inst hrule
    by_cases hc : h
    · rw [if_pos hc] at hrule
      unfold check_schedule at hrule
      exact check_schedule_go_budget cam today now_str dir cam.schedule_times
        a b hrule hb
    · rw [if_neg hc] at hrule
      exact absurd hrule (by simp)
  simp only [evaluate_normal] at ha
  by_cases h1 : 0 < cam.roas ∧ cam.roas < cam.roas_target * (cam.roas_min_pct / 100)
  · rw [if_pos h1] at ha
    by_cases h2 : 200 < cam.spent_today
    · rw [if_pos h2] at ha
      by_cases h3 : cam.daily_budget ≠ (round_up cam.spent_today : ℚ)
      · rw [if_pos h3] at ha
        injection ha with ha'
        subst ha'
        simp only at hb
        cases hb
        exact validate_round_up _
      · rw [if_neg h3] at ha
        exact absurd ha (by simp)
    · rw [if_neg h2] at ha
      by_cases h4 : cam.spent_today < 200
      · rw [if_pos h4] at ha
        by_cases h5 : cam.status ≠ "paused"
        · rw [if_pos h5] at ha
          injection ha with ha'
          subst ha'
          exact absurd hb (by simp)
        · rw [if_neg h5] at ha
          exact absurd ha (by simp)
      · rw [if_neg h4] at ha
        exact absurd ha (by simp)
  · rw [if_neg h1] at ha
    by_cases h6 : cam.budget_threshold / 100 ≤
        (if 0 < cam.daily_budget then cam.spent_today / cam.daily_budget else 0)
    · rw [if_pos h6] at ha
      by_cases h7 : cam.roas_target ≤ cam.roas
      · rw [if_pos h7] at ha
        injection ha with ha'
        subst ha'
        simp only at hb
        cases hb
        exact validate_calc_increment _ _
      · rw [if_neg h7] at ha
        rcases hfind : (normal_windows cam).find?
            (fun mins => is_cart_good cam_snaps cam.cart_value mins now_ms)
          with _ | m
        · rw [hfind] at ha
          exact rule3 _ _ ha
        · rw [hfind] at ha
          injection ha with ha'
          subst ha'
          simp only at hb
          cases hb
          exact validate_calc_increment _ _
    · rw [if_neg h6] at ha
      exact rule3 _ _ ha

/-- Any budget carried by an action of `evaluate_competition` passes
validation. -/
theorem evaluate_competition_budget_valid (cam_id : String) (cam : Campaign)
    (cam_snaps : List (ℤ × Snap)) (now_min : ℕ) (now_ms : ℤ) (a : Action)
    (b : ℤ)
    (ha : evaluate_competition cam_id cam cam_snaps now_min now_ms = some a)
    (hb : a.new_budget = some b) : validate b = true := by
  simp only [evaluate_competition] at ha
  by_cases h1 : in_time_window now_min cam.no_increase_start cam.no_increase_end = true
  · rw [if_pos h1] at ha
    exact absurd ha (by simp)
  · rw [if_neg h1] at ha
    by_cases h2 : (99 : ℚ) / 100 ≤
        (if 0 < cam.daily_budget then cam.spent_today / cam.daily_budget else 0) ∨
        cam.status = "budget_full"
    · rw [if_pos h2] at ha
      by_cases h3 : (cam.competition_interval : ℚ) ≤
          (if cam.last_auto_action ≠ 0 then
            ((now_ms : ℚ) - (cam.last_auto_action : ℚ)) / 60000
          else 999)
      · rw [if_pos h3] at ha
        by_cases h4 : is_cart_good cam_snaps cam.cart_value 15 now_ms = true
        · rw [if_pos h4] at ha
          injection ha with ha'
          subst ha'
          simp only at hb
          cases hb
          exact validate_calc_increment _ _
        · rw [if_neg h4] at ha
          injection ha with ha'
          subst ha'
          simp only at hb
          cases hb
          exact validate_calc_increment _ _
      · rw [if_neg h3] at ha
        exact absurd ha (by simp)
    · rw [if_neg h2] at ha
      exact absurd ha (by simp)

/-- C10: every `new_budget` carried by an action of either decision policy
(ROAS freeze via `round_up(spent_today)`, normal/scheduled increase via
`calc_increment(daily_budget)`, competition increase via
`calc_increment(daily_budget, amount)`) satisfies budget validation —
at least 200 with remainder mod 100 in {0, 25, 50, 75} — so the executor's
re-validation never rejects an engine-produced action. -/
theorem engine_budget_invariant (cam_id : String) (cam : Campaign)
    (cam_snaps : List (ℤ × Snap)) (now_ms : ℤ) (today now_str : String)
    (dir : List (String × String)) (now_min : ℕ) (a : Action) (b : ℤ)
    (h1 : 0 ≤ cam.spent_today) (h2 : 0 ≤ cam.daily_budget)
    (h3 : 0 ≤ cam.competition_amount)
    (ha : evaluate_normal cam_id cam cam_snaps now_ms today now_str dir = some a ∨
          evaluate_competition cam_id cam cam_snaps now_min now_ms = some a)
    (hb : a.new_budget = some b) :
    validate b = true := by
  rcases ha with ha | ha
  · exact evaluate_normal_budget_valid cam_id cam cam_snaps now_ms today
      now_str dir a b ha hb
  · exact evaluate_competition_budget_valid cam_id cam cam_snaps now_min
      now_ms a b ha hb

theorem engine_budget_invariant_witness :
    (0 ≤ (camRoasLow 500).spent_today ∧ 0 ≤ (camRoasLow 500).daily_budget ∧
     0 ≤ (camRoasLow 500).competition_amount) ∧ validate 500 = true :=
  ⟨by with_unfolding_all decide,
   engine_budget_invariant "c1" (camRoasLow 500) [] 0 "2026-10-12" "12:00" [] 0
     ⟨some "c1", .set_budget, some 500, .roasLowFreeze, "ch", none⟩ 500
     (by with_unfolding_all decide) (by with_unfolding_all decide)
     (by with_unfolding_all decide)
     (Or.inl (by with_unfolding_all decide)) rfl⟩

/-! ## Decimal-string order: the retention sweep's comparison -/

theorem char_lt_iff_toNat (a b : Char) : a < b ↔ a.toNat < b.toNat := Iff.rfl

theorem char_isDigit_bounds (c : Char) (h : c.isDigit = true) :
    48 ≤ c.toNat ∧ c.toNat ≤ 57 := by
  unfold Char.isDigit at h
  rw [Bool.and_eq_true, decide_eq_true_eq, decide_eq_true_eq] at h
  exact ⟨h.1, h.2⟩

theorem digitChar_toNat (d : ℕ) (h : d < 10) : (Nat.digitChar d).toNat = 48 + d := by
  interval_cases d <;> rfl

theorem digitChar_isDigit (d : ℕ) (h : d < 10) : (Nat.digitChar d).isDigit = true := by
  interval_cases d <;> rfl

theorem digitsVal_append (ds : List ℕ) (d : ℕ) :
    digitsVal (ds ++ [d]) = 10 * digitsVal ds + d := by
  induction ds with
  | nil => simp [digitsVal]
  | cons e ds ih =>
    simp only [List.cons_append, digitsVal]
    rw [show (List.append ds [d] : List ℕ) = ds ++ [d] from rfl, ih,
      List.length_append, List.length_singleton]
    ring

theorem natDigitsAux_spec : ∀ fuel n, n < 10 ^ fuel →
    digitsVal (natDigitsAux fuel n) = n ∧ ∀ d ∈ natDigitsAux fuel n, d < 10 := by
  intro fuel
  induction fuel with
  | zero =>
    intro n hn
    rw [pow_zero] at hn
    have hn0 : n = 0 := by omega
    subst hn0
    exact ⟨rfl, by intro d hd; exact absurd hd (by simp [natDigitsAux])⟩
  | succ fuel ih =>
    intro n hn
    by_cases h10 : n < 10
    · refine ⟨by simp [natDigitsAux, h10, digitsVal], ?_⟩
      intro d hd
      simp only [natDigitsAux, if_pos h10, List.mem_singleton] at hd
      subst hd
      exact h10
    · have hdiv : n / 10 < 10 ^ fuel := by
        rw [Nat.div_lt_iff_lt_mul (by norm_num)]
        calc n < 10 ^ (fuel + 1) := hn
          _ = 10 ^ fuel * 10 := by rw [pow_succ]
      obtain ⟨ih1, ih2⟩ := ih (n / 10) hdiv
      constructor
      · simp only [natDigitsAux, if_neg h10]
        rw [digitsVal_append, ih1, Nat.div_add_mod]
      · intro d hd
        simp only [natDigitsAux, if_neg h10, List.mem_append,
          List.mem_singleton] at hd
        rcases hd with hd | hd
        · exact ih2 d hd
        · subst hd
          exact Nat.mod_lt _ (by norm_num)

theorem self_lt_ten_pow_succ (n : ℕ) : n < 10 ^ n.succ :=
  lt_of_lt_of_le (Nat.lt_pow_self (by norm_num) n)
    (Nat.pow_le_pow_right (by norm_num) (Nat.le_succ n))

theorem digitsVal_natDigits (n : ℕ) : digitsVal (natDigits n) = n :=
  (natDigitsAux_spec n.succ n (self_lt_ten_pow_succ n)).1

theorem natDigits_lt_ten (n : ℕ) : ∀ d ∈ natDigits n, d < 10 :=
  (natDigitsAux_spec n.succ n (self_lt_ten_pow_succ n)).2

theorem charsVal_map_digitChar : ∀ ds : List ℕ, (∀ d ∈ ds, d < 10) →
    charsVal (ds.map Nat.digitChar) = digitsVal ds := by
  intro ds
  induction ds with
  | nil => intro _; rfl
  | cons d ds ih =>
    intro h
    simp only [List.map_cons, charsVal, List.length_map, digitsVal]
    rw [digitChar_toNat d (h d (List.mem_cons_self d ds)),
      Nat.add_sub_cancel_left, ih (fun e he => h e (List.mem_cons_of_mem d he))]

theorem strVal_natToString (n : ℕ) : strVal (natToString n) = n := by
  unfold strVal natToString
  rw [show (String.mk ((natDigits n).map Nat.digitChar)).data =
    (natDigits n).map Nat.digitChar from rfl]
  rw [charsVal_map_digitChar _ (natDigits_lt_ten n), digitsVal_natDigits]

theorem natToString_isDigit (n : ℕ) :
    ∀ c ∈ (natToString n).data, c.isDigit = true := by
  intro c hc
  rw [show (natToString n).data = (natDigits n).map Nat.digitChar from rfl] at hc
  obtain ⟨d, hd, rfl⟩ := List.mem_map.mp hc
  exact digitChar_isDigit d (natDigits_lt_ten n d hd)

theorem charsVal_lt_pow : ∀ s : List Char, (∀ c ∈ s, c.isDigit = true) →
    charsVal s < 10 ^ s.length := by
  intro s
  induction s with
  | nil => intro _; simp [charsVal]
  | cons c cs ih =>
    intro h
    have hb := char_isDigit_bounds c (h c (List.mem_cons_self c cs))
    have ihc := ih (fun e he => h e (List.mem_cons_of_mem c he))
    simp only [charsVal, List.length_cons]
    have h9 : c.toNat - 48 ≤ 9 := by omega
    calc (c.toNat - 48) * 10 ^ cs.length + charsVal cs
        < (c.toNat - 48) * 10 ^ cs.length + 10 ^ cs.length :=
          Nat.add_lt_add_left ihc _
      _ ≤ 9 * 10 ^ cs.length + 10 ^ cs.length :=
          Nat.add_le_add_right (Nat.mul_le_mul_right _ h9) _
      _ = 10 ^ (cs.length + 1) := by ring

theorem charsVal_lt_of_head (a b : Char) (s t : List Char)
    (hs : ∀ c ∈ s, c.isDigit = true) (ha : a.isDigit = true)
    (hlen : s.length = t.length) (hab : a < b) :
    charsVal (a :: s) < charsVal (b :: t) := by
  have hsv := charsVal_lt_pow s hs
  have haN : a.toNat < b.toNat := (char_lt_iff_toNat a b).mp hab
  have h48 := (char_isDigit_bounds a ha).1
  have hstep : a.toNat - 48 + 1 ≤ b.toNat - 48 := by omega
  calc charsVal (a :: s)
      = (a.toNat - 48) * 10 ^ s.length + charsVal s := rfl
    _ < (a.toNat - 48) * 10 ^ s.length + 10 ^ s.length :=
        Nat.add_lt_add_left hsv _
    _ = (a.toNat - 48 + 1) * 10 ^ s.length := by ring
    _ ≤ (b.toNat - 48) * 10 ^ s.length := Nat.mul_le_mul_right _ hstep
    _ ≤ (b.toNat - 48) * 10 ^ t.length + charsVal t := by
        rw [hlen]
        exact Nat.le_add_right _ _
    _ = charsVal (b :: t) := rfl

/-- For decimal digit strings of equal length, Python's lexicographic string
comparison agrees with the numeric comparison of their values. -/
theorem pyStrLt_iff_val : ∀ s t : List Char, (∀ c ∈ s, c.isDigit = true) →
    (∀ c ∈ t, c.isDigit = true) → s.length = t.length →
    (pyStrLt s t = true ↔ charsVal s < charsVal t) := by
  intro s
  induction s with
  | nil =>
    intro t _ _ hlen
    cases t with
    | nil => simp [pyStrLt, charsVal]
    | cons b bs => exact absurd hlen (by simp)
  | cons a as ih =>
    intro t hs ht hlen
    cases t with
    | nil => exact absurd hlen (by simp)
    | cons b bs =>
      have hlen' : as.length = bs.length := by simpa using hlen
      have has : ∀ c ∈ as, c.isDigit = true :=
        fun c hc => hs c (List.mem_cons_of_mem a hc)
      have hbs : ∀ c ∈ bs, c.isDigit = true :=
        fun c hc => ht c (List.mem_cons_of_mem b hc)
      have haD : a.isDigit = true := hs a (List.mem_cons_self a as)
      have hbD : b.isDigit = true := ht b (List.mem_cons_self b bs)
      rcases lt_trichotomy a b with hab | hab | hab
      · rw [show pyStrLt (a :: as) (b :: bs) = true from by simp [pyStrLt, hab]]
        simp only [true_iff]
        exact charsVal_lt_of_head a b as bs has haD hlen' hab
      · subst hab
        have hred : pyStrLt (a :: as) (a :: bs) = pyStrLt as bs := by
          simp [pyStrLt]
        rw [hred, ih bs has hbs hlen']
        simp only [charsVal, hlen']
        exact (add_lt_add_iff_left _).symm
      · have hf : pyStrLt (a :: as) (b :: bs) = false := by
          simp [pyStrLt, not_lt.mpr (le_of_lt hab), hab]
        rw [hf]
        have hgt : charsVal (b :: bs) < charsVal (a :: as) :=
          charsVal_lt_of_head b a bs as hbs hbD hlen'.symm hab
        simp only [Bool.false_eq_true, false_iff, not_lt]
        exact le_of_lt hgt

/-- C8, counterexample: the sweep compares key *strings*, so the 12-digit key
`'999999999999'` (September 2001, far older than four hours before
`now = 1760000000000`) is *retained*: lexicographically
`'999999999999' > '1759985600000'` although numerically it is smaller. -/
theorem cleanup_retention_cex :
    cleanup_old_snapshots 1760000000000 ["999999999999"] = ["999999999999"] ∧
    strVal "999999999999" < 1760000000000 - 14400000 := by
  constructor
  · with_unfolding_all decide
  · with_unfolding_all decide

/-- C8, amended: the sweep deletes a snapshot iff its key string is
lexicographically before `str(now − 4h)` (Python string `<`); for keys that
are decimal digit strings of the same length as the cutoff — true of every
epoch-millisecond key written between 2001 and 2286 — this coincides with the
numeric test, so such a snapshot is retained iff its timestamp value is not
strictly before `now − 4h`, including for campaigns holding a mix of old and
new entries. -/
theorem cleanup_retention (now_ms : ℕ) (keys : List String) (ts : String)
    (hmem : ts ∈ keys) (hdig : ∀ c ∈ ts.data, c.isDigit = true)
    (hlen : ts.data.length = (natToString (now_ms - 14400000)).data.length) :
    (ts ∈ cleanup_old_snapshots now_ms keys ↔
      ¬ strVal ts < now_ms - 14400000) := by
  unfold cleanup_old_snapshots
  generalize now_ms - 14400000 = X at hlen ⊢
  have hiff := pyStrLt_iff_val ts.data (natToString X).data hdig
    (natToString_isDigit X) hlen
  rw [show charsVal (natToString X).data = X from strVal_natToString X] at hiff
  simp only [List.mem_filter, hmem, true_and, Bool.not_eq_true']
  rw [← Bool.not_eq_true]
  exact not_congr hiff

theorem cleanup_retention_witness :
    "1759999999999" ∈ cleanup_old_snapshots 1760000000000 ["1759999999999"] :=
  (cleanup_retention 1760000000000 ["1759999999999"] "1759999999999"
    (by decide) (by decide) (by decide)).mpr (by decide)

end AdsMonitor
